import Mathlib

/-!
# Verification of `generate_visualizations.py` (multimodalICU)

Shallow embedding of the data-synthesis parts of the script.  Floating-point
values are modelled as rationals; the seeded numpy random stream is modelled
abstractly: a function `g : ℕ → ℚ` gives the successive Gaussian draws
(`np.random.randn`) in call order, and a function `z : ℕ → ℕ` gives the raw
non-negative integers underlying `np.random.randint` (the bounded draw is the
remainder by the range size, which lands in `[lo, hi)` for every raw value).
The float `sin` function and the float constant π are abstract parameters
`sinQ : ℚ → ℚ` and `piQ : ℚ`.  Wall-clock time (`datetime.now()`) is a single
integer parameter `now`, measured in hours (`timedelta(hours=h)` subtracts `h`).
-/

namespace GenVis

/-- Binary maximum on ℚ, written out so that it evaluates by kernel reduction. -/
def qmax (a b : ℚ) : ℚ := if a ≤ b then b else a

/-- Binary minimum on ℚ, written out so that it evaluates by kernel reduction. -/
def qmin (a b : ℚ) : ℚ := if a ≤ b then a else b

/-- Absolute value on ℚ, written out so that it evaluates by kernel reduction. -/
def qabs (a : ℚ) : ℚ := if a < 0 then -a else a

/-- `np.clip(x, lo, hi)`: `min(hi, max(lo, x))`. -/
def clip (x lo hi : ℚ) : ℚ := qmin hi (qmax lo x)

/-- `np.random.randn(n)` drawn from the abstract Gaussian stream `g`,
starting at stream offset `o`. -/
def randn (g : ℕ → ℚ) (o n : ℕ) : List ℚ := (List.range n).map (fun k => g (o + k))

/-- `np.cumsum`: running partial sums, with accumulator `acc`. -/
def cumsum (acc : ℚ) : List ℚ → List ℚ
  | [] => []
  | x :: xs => (acc + x) :: cumsum (acc + x) xs

/-- `hours = 72` (line 25 of the script). -/
def hours : ℕ := 72

/-- `timestamps = [datetime.now() - timedelta(hours=hours-i) for i in range(hours)]`
(line 26), with time in integer hours and a single instant `now`. -/
def timestamps (now : ℤ) : List ℤ :=
  (List.range hours).map (fun i : ℕ => now - ((hours : ℤ) - (i : ℤ)))

/-- `heart_rate = 70 + np.cumsum(np.random.randn(hours)) + 10 * np.sin(np.arange(hours) * 2 * np.pi / 24)`
(line 29), elementwise.  `sinQ` models float `sin`, `piQ` models float `np.pi`,
`o` is the offset of this `randn` call in the Gaussian stream. -/
def heart_rate (g : ℕ → ℚ) (sinQ : ℚ → ℚ) (piQ : ℚ) (o : ℕ) : List ℚ :=
  (List.range hours).map (fun i =>
    70 + (cumsum 0 (randn g o hours)).getD i 0 + 10 * sinQ ((i : ℚ) * 2 * piQ / 24))

/-- `blood_pressure_sys = 120 + np.cumsum(np.random.randn(hours) * 0.5)` (line 30). -/
def blood_pressure_sys (g : ℕ → ℚ) (o : ℕ) : List ℚ :=
  (List.range hours).map (fun i =>
    120 + (cumsum 0 ((randn g o hours).map (fun x => x * (1/2)))).getD i 0)

/-- `spo2 = np.clip(95 + np.random.randn(hours) * 2, 90, 100)` (lines 31-32). -/
def spo2 (g : ℕ → ℚ) (o : ℕ) : List ℚ :=
  (randn g o hours).map (fun x => clip (95 + x * 2) 90 100)

/-- `age_groups` (line 89). -/
def age_groups : List String := ["18-30", "31-45", "46-60", "61-75", "76+"]

/-- `outcomes` (line 90). -/
def outcomes : List String := ["Discharged", "Transferred", "ICU Stay"]

/-- `np.random.randint(lo, hi)`: `lo` plus the raw draw reduced modulo the
range size, so the result lies in `[lo, hi)`. -/
def randint (lo hi : ℕ) (z : ℕ → ℕ) (k : ℕ) : ℕ := lo + z k % (hi - lo)

/-- One row of the demographics table: `{'Age Group': age, 'Outcome': outcome, 'Count': count}`. -/
structure DemoRow where
  ageGroup : String
  outcome : String
  count : ℕ
deriving DecidableEq

/-- The `(age, outcome)` pairs visited by the nested loop (lines 93-94), in order. -/
def demoPairs : List (String × String) :=
  age_groups.flatMap (fun a => outcomes.map (fun o => (a, o)))

/-- The demographics rows (lines 92-96): one row per `(age, outcome)` pair,
with `count = np.random.randint(10, 100)`; the `k`-th iteration consumes the
`k`-th integer draw. -/
def demographicsData (z : ℕ → ℕ) : List DemoRow :=
  demoPairs.enum.map (fun p => ⟨p.2.1, p.2.2, randint 10 100 z p.1⟩)

/-- `variables` (lines 135-136). -/
def clinicalVariables : List String :=
  ["Heart Rate", "Blood Pressure", "SpO2", "Temperature",
   "Respiratory Rate", "GCS Score", "SOFA Score", "WBC Count"]

/-- `n_vars = len(variables)` (line 139). -/
def n_vars : ℕ := clinicalVariables.length

/-- Entry `(i,j)` of `np.random.randn(n_vars, n_vars)` (line 140): row-major
consumption of the Gaussian stream from offset `o`. -/
def rawEntry (g : ℕ → ℚ) (o i j : ℕ) : ℚ := g (o + i * n_vars + j)

/-- Entry after `correlation_matrix = (correlation_matrix + correlation_matrix.T) / 2`
(line 141). -/
def symEntry (g : ℕ → ℚ) (o i j : ℕ) : ℚ := (rawEntry g o i j + rawEntry g o j i) / 2

/-- Entry after `np.fill_diagonal(correlation_matrix, 1)` (line 142). -/
def preEntry (g : ℕ → ℚ) (o i j : ℕ) : ℚ := if i = j then 1 else symEntry g o i j

/-- The pre-normalization matrix (state after line 142), as a list of rows. -/
def preMatrix (g : ℕ → ℚ) (o : ℕ) : List (List ℚ) :=
  (List.range n_vars).map (fun i => (List.range n_vars).map (fun j => preEntry g o i j))

/-- `np.max(np.abs(correlation_matrix))` over the pre-normalization matrix (line 145). -/
def maxAbs (g : ℕ → ℚ) (o : ℕ) : ℚ :=
  ((preMatrix g o).flatMap (fun row => row.map (fun x => qabs x))).foldr qmax 0

/-- Entry of the final matrix after `correlation_matrix / np.max(np.abs(correlation_matrix))`
(line 145). -/
def corrEntry (g : ℕ → ℚ) (o i j : ℕ) : ℚ := preEntry g o i j / maxAbs g o

/-- The final correlation matrix handed to the heatmap, as a list of rows. -/
def correlation_matrix (g : ℕ → ℚ) (o : ℕ) : List (List ℚ) :=
  (List.range n_vars).map (fun i => (List.range n_vars).map (fun j => corrEntry g o i j))

/-- Entry `(i,j)` of a list-of-rows matrix, defaulting to `0`. -/
def entryAt (m : List (List ℚ)) (i j : ℕ) : ℚ := (m.getD i []).getD j 0

/-- The driver `main` (lines 179-192), abstracted over the outcome of each
generator call: it runs the generators in the listed order and stops at the
first failure, which it propagates; the returned list records which generators
were attempted, in order. -/
def runSeq {E : Type} : List (String × Except E Unit) → List String × Except E Unit
  | [] => ([], Except.ok ())
  | (n, r) :: rest =>
    match r with
    | Except.error e => ([n], Except.error e)
    | Except.ok _ =>
      let p := runSeq rest
      (n :: p.1, p.2)

/-- `main` (lines 184-186): the three generator calls in source order. -/
def mainDriver (E : Type) (ts demo corr : Except E Unit) : List String × Except E Unit :=
  runSeq [("timeseries", ts), ("demographics", demo), ("correlation", corr)]

/-- All synthesized data arrays of one program run. -/
structure SynthData where
  heartRate : List ℚ
  bloodPressure : List ℚ
  spo2Vals : List ℚ
  demoRows : List DemoRow
  corrRows : List (List ℚ)
deriving DecidableEq

/-- One program run: `np.random.seed(42)` fixes the streams `g`, `z`; the
generators then consume the Gaussian stream in call order (heart rate draws
0-71, blood pressure 72-143, SpO2 144-215, the correlation matrix 216-279)
and the integer stream (draws 0-14). -/
def runAll (g : ℕ → ℚ) (z : ℕ → ℕ) (sinQ : ℚ → ℚ) (piQ : ℚ) : SynthData :=
  { heartRate := heart_rate g sinQ piQ 0
    bloodPressure := blood_pressure_sys g 72
    spo2Vals := spo2 g 144
    demoRows := demographicsData z
    corrRows := correlation_matrix g 216 }

/-! ## Bridging lemmas for the executable order operations -/

theorem qmax_eq_max (a b : ℚ) : qmax a b = max a b := (max_def a b).symm

theorem qmin_eq_min (a b : ℚ) : qmin a b = min a b := (min_def a b).symm

theorem qabs_eq_abs (a : ℚ) : qabs a = |a| := by
  unfold qabs
  rcases lt_or_le a 0 with h | h
  · rw [if_pos h, abs_of_neg h]
  · rw [if_neg (not_lt.mpr h), abs_of_nonneg h]

/-! ## List helpers -/

theorem getD_map_range {α : Type} (f : ℕ → α) (d : α) {n i : ℕ} (h : i < n) :
    ((List.range n).map f).getD i d = f i := by
  have hlen : i < ((List.range n).map f).length := by simpa using h
  rw [List.getD_eq_getElem _ _ hlen]
  simp

theorem le_foldr_qmax {l : List ℚ} {a : ℚ} (h : a ∈ l) (b : ℚ) : a ≤ l.foldr qmax b := by
  induction l with
  | nil => cases h
  | cons x xs ih =>
    rw [List.foldr_cons, qmax_eq_max]
    rcases List.mem_cons.mp h with rfl | h'
    · exact le_max_left _ _
    · exact le_trans (ih h') (le_max_right _ _)

theorem foldr_qmax_mem_or (l : List ℚ) (b : ℚ) : l.foldr qmax b ∈ l ∨ l.foldr qmax b = b := by
  induction l with
  | nil => exact Or.inr rfl
  | cons x xs ih =>
    rw [List.foldr_cons, qmax_eq_max]
    rcases max_choice x (xs.foldr qmax b) with h | h
    · rw [h]; exact Or.inl (List.mem_cons_self _ _)
    · rw [h]
      rcases ih with h' | h'
      · exact Or.inl (List.mem_cons_of_mem _ h')
      · exact Or.inr h'

/-! ## `cumsum` lemmas -/

theorem cumsum_length (acc : ℚ) (xs : List ℚ) : (cumsum acc xs).length = xs.length := by
  induction xs generalizing acc with
  | nil => rfl
  | cons x xs ih => simp [cumsum, ih]

theorem cumsum_getD (xs : List ℚ) (acc : ℚ) (i : ℕ) (h : i < xs.length) :
    (cumsum acc xs).getD i 0 = acc + ∑ k ∈ Finset.range (i + 1), xs.getD k 0 := by
  induction xs generalizing acc i with
  | nil => simp at h
  | cons x xs ih =>
    cases i with
    | zero => simp [cumsum]
    | succ i =>
      have h' : i < xs.length := by simpa using h
      rw [cumsum, List.getD_cons_succ, ih (acc + x) i h',
        Finset.sum_range_succ' (fun k => (x :: xs).getD k 0) (i + 1)]
      simp only [List.getD_cons_succ, List.getD_cons_zero]
      ring

/-! ## Correlation-matrix lemmas -/

theorem entryAt_corr (g : ℕ → ℚ) (o : ℕ) {i j : ℕ} (hi : i < n_vars) (hj : j < n_vars) :
    entryAt (correlation_matrix g o) i j = corrEntry g o i j := by
  rw [entryAt, correlation_matrix, getD_map_range _ _ hi, getD_map_range _ _ hj]

theorem corr_length (g : ℕ → ℚ) (o : ℕ) : (correlation_matrix g o).length = n_vars := by
  simp [correlation_matrix]

theorem corr_row_length (g : ℕ → ℚ) (o : ℕ) {i : ℕ} (hi : i < n_vars) :
    ((correlation_matrix g o).getD i []).length = n_vars := by
  rw [correlation_matrix, getD_map_range _ _ hi]
  simp

theorem mem_absList (g : ℕ → ℚ) (o : ℕ) {i j : ℕ} (hi : i < n_vars) (hj : j < n_vars) :
    qabs (preEntry g o i j) ∈
      (preMatrix g o).flatMap (fun row => row.map (fun y => qabs y)) := by
  simp only [preMatrix, List.mem_flatMap, List.mem_map, List.mem_range]
  exact ⟨(List.range n_vars).map (fun j' => preEntry g o i j'), ⟨i, hi, rfl⟩,
    preEntry g o i j, List.mem_map_of_mem _ (List.mem_range.mpr hj), rfl⟩

theorem abs_preEntry_le_maxAbs (g : ℕ → ℚ) (o : ℕ) {i j : ℕ}
    (hi : i < n_vars) (hj : j < n_vars) : |preEntry g o i j| ≤ maxAbs g o := by
  rw [← qabs_eq_abs]
  exact le_foldr_qmax (mem_absList g o hi hj) 0

theorem preEntry_diag (g : ℕ → ℚ) (o i : ℕ) : preEntry g o i i = 1 := if_pos rfl

theorem one_le_maxAbs (g : ℕ → ℚ) (o : ℕ) : 1 ≤ maxAbs g o := by
  have h := le_foldr_qmax (mem_absList g o (i := 0) (j := 0) (by decide) (by decide)) 0
  rwa [preEntry_diag, qabs_eq_abs, abs_one] at h

theorem maxAbs_pos (g : ℕ → ℚ) (o : ℕ) : 0 < maxAbs g o :=
  lt_of_lt_of_le one_pos (one_le_maxAbs g o)

theorem corrEntry_diag (g : ℕ → ℚ) (o i : ℕ) : corrEntry g o i i = 1 / maxAbs g o := by
  rw [corrEntry, preEntry_diag]

theorem abs_corrEntry_le_one (g : ℕ → ℚ) (o : ℕ) {i j : ℕ}
    (hi : i < n_vars) (hj : j < n_vars) : |corrEntry g o i j| ≤ 1 := by
  rw [corrEntry, abs_div, abs_of_pos (maxAbs_pos g o)]
  exact div_le_one_of_le₀ (abs_preEntry_le_maxAbs g o hi hj) (maxAbs_pos g o).le

theorem exists_abs_corrEntry_eq_one (g : ℕ → ℚ) (o : ℕ) :
    ∃ i, i < n_vars ∧ ∃ j, j < n_vars ∧ |corrEntry g o i j| = 1 := by
  have hfold : ((preMatrix g o).flatMap (fun row => row.map (fun y => qabs y))).foldr qmax 0
      = maxAbs g o := rfl
  rcases foldr_qmax_mem_or
      ((preMatrix g o).flatMap (fun row => row.map (fun y => qabs y))) 0 with h | h
  · rw [hfold] at h
    obtain ⟨row, hrow, hmem⟩ := List.mem_flatMap.mp h
    rw [preMatrix] at hrow
    obtain ⟨i, hi, hieq⟩ := List.mem_map.mp hrow
    subst hieq
    obtain ⟨y, hymem, hqy⟩ := List.mem_map.mp hmem
    obtain ⟨j, hj, hjeq⟩ := List.mem_map.mp hymem
    subst hjeq
    refine ⟨i, List.mem_range.mp hi, j, List.mem_range.mp hj, ?_⟩
    rw [corrEntry, abs_div, abs_of_pos (maxAbs_pos g o), ← qabs_eq_abs, hqy,
      div_self (maxAbs_pos g o).ne']
  · rw [hfold] at h
    have hle := one_le_maxAbs g o
    rw [h] at hle
    norm_num at hle

theorem corrEntry_symm (g : ℕ → ℚ) (o i j : ℕ) : corrEntry g o i j = corrEntry g o j i := by
  rw [corrEntry, corrEntry]
  rcases eq_or_ne i j with rfl | hij
  · rfl
  · rw [preEntry, preEntry, if_neg hij, if_neg (Ne.symm hij), symEntry, symEntry]
    ring_nf

/-! ## Concrete evaluation of the correlation generator on the constant-2 stream -/

theorem range_n_vars : List.range n_vars = [0, 1, 2, 3, 4, 5, 6, 7] := rfl

theorem preEntry_const2 (i j : ℕ) : preEntry (fun _ => 2) 0 i j = if i = j then 1 else 2 := by
  simp only [preEntry, symEntry, rawEntry]
  norm_num

theorem qabs_one : qabs 1 = 1 := by norm_num [qabs]

theorem qabs_two : qabs 2 = 2 := by norm_num [qabs]

theorem qabs_preEntry_const2 (i j : ℕ) :
    qabs (preEntry (fun _ => 2) 0 i j) = if i = j then 1 else 2 := by
  rw [preEntry_const2]
  rcases eq_or_ne i j with rfl | hij
  · simp [qabs_one]
  · simp [hij, qabs_two]

theorem qmax_one_zero : qmax 1 0 = 1 := by norm_num [qmax]

theorem qmax_two_one : qmax 2 1 = 2 := by norm_num [qmax]

theorem qmax_two_two : qmax 2 2 = 2 := by norm_num [qmax]

theorem qmax_one_two : qmax 1 2 = 2 := by norm_num [qmax]

set_option maxHeartbeats 2000000 in
theorem maxAbs_const2 : maxAbs (fun _ => 2) 0 = 2 := by
  rw [maxAbs, preMatrix, range_n_vars]
  simp only [List.map_cons, List.map_nil, List.flatMap_cons, List.flatMap_nil,
    List.append_nil, List.cons_append, List.nil_append, qabs_preEntry_const2]
  simp only [List.foldr_cons, List.foldr_nil]
  norm_num [qmax_one_zero, qmax_two_one, qmax_two_two, qmax_one_two]

/-! ## Time-series lemmas -/

theorem spo2_getD (g : ℕ → ℚ) (o : ℕ) {i : ℕ} (h : i < hours) :
    (spo2 g o).getD i 0 = clip (95 + g (o + i) * 2) 90 100 := by
  rw [spo2, randn, List.map_map]
  exact getD_map_range _ _ h

theorem spo2_length (g : ℕ → ℚ) (o : ℕ) : (spo2 g o).length = hours := by
  simp [spo2, randn]

theorem clip_le_hi {x lo hi : ℚ} (h : lo ≤ hi) : lo ≤ clip x lo hi ∧ clip x lo hi ≤ hi := by
  rw [clip, qmin_eq_min, qmax_eq_max]
  exact ⟨le_min h (le_max_left _ _), min_le_left _ _⟩

theorem heart_rate_getD (g : ℕ → ℚ) (sinQ : ℚ → ℚ) (piQ : ℚ) (o : ℕ) {i : ℕ}
    (h : i < hours) :
    (heart_rate g sinQ piQ o).getD i 0 =
      70 + (∑ k ∈ Finset.range (i + 1), g (o + k)) + 10 * sinQ ((i : ℚ) * 2 * piQ / 24) := by
  rw [heart_rate, getD_map_range _ _ h]
  have hlen : i < (randn g o hours).length := by simpa [randn] using h
  rw [cumsum_getD _ _ _ hlen]
  have hsum : ∀ k ∈ Finset.range (i + 1), (randn g o hours).getD k 0 = g (o + k) := by
    intro k hk
    have hk' : k < hours := lt_of_lt_of_le (Finset.mem_range.mp hk) h
    exact getD_map_range _ _ hk'
  rw [Finset.sum_congr rfl hsum]
  ring

/-! ## Demographics lemmas -/

theorem demographicsData_count (z : ℕ → ℕ) {r : DemoRow} (h : r ∈ demographicsData z) :
    10 ≤ r.count ∧ r.count < 100 := by
  rw [demographicsData] at h
  obtain ⟨p, hp, hr⟩ := List.mem_map.mp h
  subst hr
  show 10 ≤ randint 10 100 z p.1 ∧ randint 10 100 z p.1 < 100
  rw [randint]
  have hm : z p.1 % (100 - 10) < 90 := Nat.mod_lt _ (by norm_num)
  omega

/-! ## Claim theorems -/

/-- C1 (counterexample): the claim that every diagonal entry of the produced
correlation matrix equals 1 fails: on the Gaussian stream that constantly
draws 2, entry `(0,0)` of the final matrix is `1/2`, not 1, because the whole
matrix (diagonal included) is divided by its maximum absolute value after the
diagonal has been set to 1. -/
theorem corr_diag_const2_ne_one :
    entryAt (correlation_matrix (fun _ => 2) 0) 0 0 ≠ 1 := by
  rw [entryAt_corr _ _ (by decide) (by decide), corrEntry_diag, maxAbs_const2]
  norm_num

/-- C1 (amended): every diagonal entry `M[i][i]` of the produced correlation
matrix equals 1 divided by the maximum absolute value of the pre-normalization
matrix (so it equals 1 exactly when that maximum is 1). -/
theorem corr_diag_eq_one_div_maxAbs (g : ℕ → ℚ) (o : ℕ) (i : ℕ) (hi : i < 8) :
    entryAt (correlation_matrix g o) i i = 1 / maxAbs g o := by
  rw [entryAt_corr g o hi hi, corrEntry_diag]

/-- Witness for the amended C1 at the constant-2 stream and `i = 0`. -/
theorem corr_diag_eq_one_div_maxAbs_witness :
    (0 : ℕ) < 8 ∧
    entryAt (correlation_matrix (fun _ => 2) 0) 0 0 = 1 / maxAbs (fun _ => 2) 0 :=
  ⟨by decide, corr_diag_eq_one_div_maxAbs (fun _ => 2) 0 0 (by decide)⟩

/-- C2: for identical seeded streams (the state fixed by `np.random.seed(42)`),
two runs produce identical synthesized data arrays: same heart-rate,
blood-pressure and SpO2 sequences, same 15 demographic counts, and same
correlation matrix. -/
theorem runAll_deterministic (g₁ g₂ : ℕ → ℚ) (z₁ z₂ : ℕ → ℕ) (sinQ : ℚ → ℚ) (piQ : ℚ)
    (hg : g₁ = g₂) (hz : z₁ = z₂) :
    runAll g₁ z₁ sinQ piQ = runAll g₂ z₂ sinQ piQ := by
  rw [hg, hz]

/-- Witness for C2: two runs on the same concrete streams coincide. -/
theorem runAll_deterministic_witness :
    (fun n : ℕ => (n : ℚ)) = (fun n : ℕ => (n : ℚ)) ∧
    runAll (fun n => (n : ℚ)) (fun n => n) (fun _ => 0) 3 =
      runAll (fun n => (n : ℚ)) (fun n => n) (fun _ => 0) 3 :=
  ⟨rfl, runAll_deterministic _ _ _ _ _ _ rfl rfl⟩

/-- C3: the oxygen-saturation sequence has length exactly 72 and every value
lies within `[90, 100]` inclusive. -/
theorem spo2_length_and_range (g : ℕ → ℚ) (o : ℕ) :
    (spo2 g o).length = 72 ∧
    ∀ i, i < 72 → 90 ≤ (spo2 g o).getD i 0 ∧ (spo2 g o).getD i 0 ≤ 100 := by
  refine ⟨spo2_length g o, fun i hi => ?_⟩
  rw [spo2_getD g o hi]
  exact clip_le_hi (by norm_num)

/-- Witness for C3 at the constant-0 stream and index 0. -/
theorem spo2_length_and_range_witness :
    (0 : ℕ) < 72 ∧
    (90 ≤ (spo2 (fun _ => 0) 0).getD 0 0 ∧ (spo2 (fun _ => 0) 0).getD 0 0 ≤ 100) :=
  ⟨by decide, (spo2_length_and_range (fun _ => 0) 0).2 0 (by decide)⟩

/-- C4: the demographics generator produces exactly 15 rows, exactly one per
`(age-group, outcome)` pair from the fixed 5 age groups and 3 outcomes (the
pair list below is that product and has no duplicates), and every count lies
in `[10, 100)`. -/
theorem demographics_rows_spec (z : ℕ → ℕ) :
    (demographicsData z).length = 15 ∧
    (demographicsData z).map (fun r => (r.ageGroup, r.outcome)) =
      age_groups.flatMap (fun a => outcomes.map (fun o => (a, o))) ∧
    ((demographicsData z).map (fun r => (r.ageGroup, r.outcome))).Nodup ∧
    ∀ r ∈ demographicsData z, 10 ≤ r.count ∧ r.count < 100 := by
  have hpairs : (demographicsData z).map (fun r => (r.ageGroup, r.outcome)) =
      age_groups.flatMap (fun a => outcomes.map (fun o => (a, o))) := rfl
  refine ⟨rfl, hpairs, ?_, fun r hr => demographicsData_count z hr⟩
  rw [hpairs]
  decide

/-- Witness for C4: the first row of the run on the constant-0 integer stream. -/
theorem demographics_rows_spec_witness :
    DemoRow.mk "18-30" "Discharged" 10 ∈ demographicsData (fun _ => 0) ∧
    (10 ≤ (DemoRow.mk "18-30" "Discharged" 10).count ∧
      (DemoRow.mk "18-30" "Discharged" 10).count < 100) :=
  ⟨by decide, (demographics_rows_spec (fun _ => 0)).2.2.2 _ (by decide)⟩

/-- C5: the produced correlation matrix is symmetric, `M[i][j] = M[j][i]` for
all `i, j` in `0..7`, regardless of the random draws. -/
theorem correlation_symmetric (g : ℕ → ℚ) (o : ℕ) (i j : ℕ) (hi : i < 8) (hj : j < 8) :
    entryAt (correlation_matrix g o) i j = entryAt (correlation_matrix g o) j i := by
  rw [entryAt_corr g o hi hj, entryAt_corr g o hj hi, corrEntry_symm]

/-- Witness for C5 at the constant-2 stream and indices `(0, 1)`. -/
theorem correlation_symmetric_witness :
    (0 : ℕ) < 8 ∧ (1 : ℕ) < 8 ∧
    entryAt (correlation_matrix (fun _ => 2) 0) 0 1 =
      entryAt (correlation_matrix (fun _ => 2) 0) 1 0 :=
  ⟨by decide, by decide, correlation_symmetric (fun _ => 2) 0 0 1 (by decide) (by decide)⟩

/-- C6: the produced correlation matrix is exactly 8×8 and, after
normalization, every entry lies in `[-1, 1]`. -/
theorem correlation_dims_and_range (g : ℕ → ℚ) (o : ℕ) :
    (correlation_matrix g o).length = 8 ∧
    (∀ i, i < 8 → ((correlation_matrix g o).getD i []).length = 8) ∧
    ∀ i j, i < 8 → j < 8 →
      -1 ≤ entryAt (correlation_matrix g o) i j ∧ entryAt (correlation_matrix g o) i j ≤ 1 := by
  refine ⟨corr_length g o, fun i hi => corr_row_length g o hi, fun i j hi hj => ?_⟩
  rw [entryAt_corr g o hi hj]
  exact abs_le.mp (abs_corrEntry_le_one g o hi hj)

/-- Witness for C6 at the constant-2 stream and indices `(0, 1)`. -/
theorem correlation_dims_and_range_witness :
    (0 : ℕ) < 8 ∧ (1 : ℕ) < 8 ∧
    (-1 ≤ entryAt (correlation_matrix (fun _ => 2) 0) 0 1 ∧
      entryAt (correlation_matrix (fun _ => 2) 0) 0 1 ≤ 1) :=
  ⟨by decide, by decide,
    (correlation_dims_and_range (fun _ => 2) 0).2.2 0 1 (by decide) (by decide)⟩

/-- C7: for every index `i` in `0..71`, the heart-rate value equals the
baseline 70 plus the cumulative sum of the first `i+1` random-walk increments
plus the amplitude-10 sinusoid of period 24 hours evaluated at `i`,
i.e. `10 * sin(i * 2π / 24)`. -/
theorem heart_rate_formula (g : ℕ → ℚ) (sinQ : ℚ → ℚ) (piQ : ℚ) (o : ℕ) (i : ℕ)
    (h : i < 72) :
    (heart_rate g sinQ piQ o).getD i 0 =
      70 + (∑ k ∈ Finset.range (i + 1), g (o + k)) + 10 * sinQ ((i : ℚ) * 2 * piQ / 24) :=
  heart_rate_getD g sinQ piQ o h

/-- Witness for C7 at the constant-0 streams and index 0. -/
theorem heart_rate_formula_witness :
    (0 : ℕ) < 72 ∧
    (heart_rate (fun _ => 0) (fun _ => 0) 0 0).getD 0 0 =
      70 + (∑ _k ∈ Finset.range 1, (0 : ℚ)) + 10 * 0 :=
  ⟨by decide, heart_rate_formula (fun _ => 0) (fun _ => 0) 0 0 0 (by decide)⟩

/-- C8 (counterexample): the claim that the last timestamp equals the current
time at generation fails: with `now = 0` (time in hours), the last of the 72
timestamps is `0 - (72 - 71) = -1`, one hour before `now`. -/
theorem timestamps_last_ne_now : (timestamps 0).getD 71 0 ≠ 0 := by decide

/-- C8 (amended): the timestamp sequence is a fixed window of 72 hourly
points ending one hour before `now`: its last element equals `now` minus one
hour, and consecutive points are one hour apart. -/
theorem timestamps_window (now : ℤ) :
    (timestamps now).length = 72 ∧
    (timestamps now).getD 71 0 = now - 1 ∧
    ∀ i, i + 1 < 72 →
      (timestamps now).getD (i + 1) 0 - (timestamps now).getD i 0 = 1 := by
  refine ⟨by simp [timestamps, hours], ?_, fun i hi => ?_⟩
  · rw [timestamps, getD_map_range _ _ (by decide : (71 : ℕ) < hours)]
    norm_num [hours]
  · have hi1 : i + 1 < hours := hi
    have hi0 : i < hours := Nat.lt_of_succ_lt hi
    rw [timestamps, getD_map_range _ _ hi1, getD_map_range _ _ hi0]
    push_cast
    ring

/-- Witness for the amended C8 at `now = 5` and `i = 0`. -/
theorem timestamps_window_witness :
    0 + 1 < 72 ∧ (timestamps 5).getD (0 + 1) 0 - (timestamps 5).getD 0 0 = 1 :=
  ⟨by decide, (timestamps_window 5).2.2 0 (by decide)⟩

/-- C9: the driver invokes the generators in the fixed order time-series,
demographics, correlation; if a generator fails, the following ones are not
attempted and the error propagates out of the driver, while on success all
three run in order and the driver terminates normally. -/
theorem mainDriver_order_and_propagation (E : Type) (e : E) (demo corr : Except E Unit) :
    mainDriver E (Except.error e) demo corr = (["timeseries"], Except.error e) ∧
    mainDriver E (Except.ok ()) (Except.error e) corr =
      (["timeseries", "demographics"], Except.error e) ∧
    mainDriver E (Except.ok ()) (Except.ok ()) (Except.error e) =
      (["timeseries", "demographics", "correlation"], Except.error e) ∧
    mainDriver E (Except.ok ()) (Except.ok ()) (Except.ok ()) =
      (["timeseries", "demographics", "correlation"], Except.ok ()) :=
  ⟨rfl, rfl, rfl, rfl⟩

/-- C10: all eight diagonal entries of the produced correlation matrix are
equal to one another, each equal to 1 divided by the maximum absolute value of
the pre-normalization matrix (hence at most 1), and at least one entry of the
final matrix has absolute value exactly 1. -/
theorem corr_diag_uniform_and_extreme (g : ℕ → ℚ) (o : ℕ) :
    (∀ i j, i < 8 → j < 8 →
      entryAt (correlation_matrix g o) i i = entryAt (correlation_matrix g o) j j) ∧
    (∀ i, i < 8 → entryAt (correlation_matrix g o) i i = 1 / maxAbs g o ∧
      entryAt (correlation_matrix g o) i i ≤ 1) ∧
    ∃ i, i < 8 ∧ ∃ j, j < 8 ∧ |entryAt (correlation_matrix g o) i j| = 1 := by
  have hdiag : ∀ i, i < n_vars → entryAt (correlation_matrix g o) i i = 1 / maxAbs g o := by
    intro i hi
    rw [entryAt_corr g o hi hi, corrEntry_diag]
  refine ⟨fun i j hi hj => by rw [hdiag i hi, hdiag j hj], fun i hi => ⟨hdiag i hi, ?_⟩, ?_⟩
  · rw [hdiag i hi]
    exact (div_le_one (maxAbs_pos g o)).mpr (one_le_maxAbs g o)
  · obtain ⟨i, hi, j, hj, habs⟩ := exists_abs_corrEntry_eq_one g o
    exact ⟨i, hi, j, hj, by rw [entryAt_corr g o hi hj]; exact habs⟩

/-- Witness for C10 at the constant-2 stream. -/
theorem corr_diag_uniform_and_extreme_witness :
    (0 : ℕ) < 8 ∧ (1 : ℕ) < 8 ∧
    entryAt (correlation_matrix (fun _ => 2) 0) 0 0 =
      entryAt (correlation_matrix (fun _ => 2) 0) 1 1 ∧
    (entryAt (correlation_matrix (fun _ => 2) 0) 0 0 = 1 / maxAbs (fun _ => 2) 0 ∧
      entryAt (correlation_matrix (fun _ => 2) 0) 0 0 ≤ 1) :=
  ⟨by decide, by decide,
    (corr_diag_uniform_and_extreme (fun _ => 2) 0).1 0 1 (by decide) (by decide),
    (corr_diag_uniform_and_extreme (fun _ => 2) 0).2.1 0 (by decide)⟩

end GenVis
